import Mathlib

/-!
Shallow embedding of the hoot HTTP/1.1 response engine:
the body-framing resolver (src/src/res.rs), the client response
engine (src/src/client/res.rs) and the shared call state (src/src/lib.rs).
Byte buffers are modelled as `List Nat`, header names and values as
`List Char` (the source holds them as `&str`/`&[u8]`; every claim under
study concerns well-formed text, so the UTF-8 decoding step of
`str::from_utf8` is the identity here).
-/

deriving instance DecidableEq for Except

namespace Hoot

/-- HTTP versions supported by the library (src/src/lib.rs). -/
inductive HttpVersion
  | Http10
  | Http11
deriving DecidableEq, Repr

/-- Request methods (src/src/lib.rs). -/
inductive Method
  | OPTIONS | GET | POST | PUT | DELETE | HEAD | TRACE | CONNECT | PATCH
deriving DecidableEq, Repr

/-- Error kinds. `Version`, `DuplicateContentLength`,
`RecvMoreThanContentLength`, `RecvLessThanContentLength` and
`BodyNotFinished` are named in the files under src/; the remaining
variants stand for the kinds of spec §7 whose concrete names live in the
missing error module (invalid numeric header value, malformed chunk
syntax, tokenizer-reported syntax error). -/
inductive HootError
  | Version
  | DuplicateContentLength
  | RecvMoreThanContentLength
  | RecvLessThanContentLength
  | BodyNotFinished
  | ParseIntError
  | ChunkSyntax
  | Tokenizer
deriving DecidableEq, Repr

/-- A header pair as handed to the engine by the tokenizer. -/
structure Header where
  name : List Char
  value : List Char
deriving DecidableEq, Repr

/-- Lower-case an ASCII letter, identity elsewhere. -/
def lowerChar (c : Char) : Char :=
  if 'A' ≤ c ∧ c ≤ 'Z' then Char.ofNat (c.toNat + 32) else c

/-- Modelled from the spec: `compare_lowercase_ascii` lives in the missing
util module; per its uses in src/src/res.rs it compares its first argument
case-insensitively (ASCII) against an already-lowercase second argument. -/
def compareLowercaseAscii (a b : List Char) : Bool :=
  a.map lowerChar == b

/-- Decimal digit test. -/
def isDigitChar (c : Char) : Bool :=
  '0' ≤ c ∧ c ≤ '9'

/-- Parse a non-negative decimal integer, as `str::parse::<u64>` does on the
header values the claims quantify over (plain digit strings; the u64 range
bound is immaterial to every claim and not modelled). -/
def parseU64 (s : List Char) : Option Nat :=
  if s ≠ [] ∧ s.all isDigitChar then
    some (s.foldl (fun acc c => acc * 10 + (c.toNat - 48)) 0)
  else none

/-- Rust `str::trim` on a char list (ASCII whitespace suffices here). -/
def isWsChar (c : Char) : Bool :=
  c == ' ' || c == '\t' || c == '\r' || c == '\n'

def trimChars (s : List Char) : List Char :=
  ((s.dropWhile isWsChar).reverse.dropWhile isWsChar).reverse

/-- Split on commas (Rust `s.split(",")`). -/
def splitComma (s : List Char) : List (List Char) :=
  match s with
  | [] => [[]]
  | c :: rest =>
    match splitComma rest with
    | [] => [[c]]
    | grp :: grps => if c == ',' then [] :: grp :: grps else (c :: grp) :: grps

/-- `s.split(",").map(|v| v.trim()).any(|v| compare_lowercase_ascii(v, "chunked"))`
from src/src/res.rs line 192-195. -/
def hasChunkedToken (s : List Char) : Bool :=
  (splitComma s).any fun v => compareLowercaseAscii (trimChars v) "chunked".toList

example : hasChunkedToken " Gzip, Chunked ".toList = true := by decide
example : hasChunkedToken "identity".toList = false := by decide
example : parseU64 "120".toList = some 120 := by decide
example : parseU64 "1a".toList = none := by decide

/-- How a response body is delimited (src/src/res.rs `RecvBodyMode`). -/
inductive RecvBodyMode
  | LengthDelimited (n : Nat)
  | Chunked
  | CloseDelimited
deriving DecidableEq, Repr

/-- Is a header a Content-Length header (src/src/res.rs line 183)? -/
def isContentLength (h : Header) : Bool :=
  compareLowercaseAscii h.name "content-length".toList

/-- Is a header a Transfer-Encoding header (src/src/res.rs line 189)? -/
def isTransferEncoding (h : Header) : Bool :=
  compareLowercaseAscii h.name "transfer-encoding".toList

/-- The header scan loop of `RecvBodyMode::from` (src/src/res.rs lines
179-197): accumulates an optional Content-Length and a chunked flag,
erroring on a non-numeric Content-Length value or a second Content-Length
header, and skipping further Transfer-Encoding headers once chunked was
seen. -/
def scanHeaders : List Header → Option Nat → Bool →
    Except HootError (Option Nat × Bool)
  | [], content_length, is_chunked => .ok (content_length, is_chunked)
  | h :: rest, content_length, is_chunked =>
    if isContentLength h then
      match parseU64 h.value with
      | none => .error .ParseIntError
      | some v =>
        if content_length.isSome then .error .DuplicateContentLength
        else scanHeaders rest (some v) is_chunked
    else if !is_chunked && isTransferEncoding h then
      scanHeaders rest content_length (hasChunkedToken h.value)
    else
      scanHeaders rest content_length is_chunked

/-- The has-no-body test of `RecvBodyMode::from` (src/src/res.rs lines
161-170): HEAD request, or status 1xx/204/304. -/
def hasNoBody (is_head : Bool) (status_code : Nat) : Bool :=
  is_head || (100 ≤ status_code && status_code ≤ 199)
    || (status_code == 204 || status_code == 304)

/-- `RecvBodyMode::from` (src/src/res.rs lines 155-213), the Body Framing
Resolver: no-body statuses map to `LengthDelimited 0`; otherwise the header
scan decides between chunked (ignored for an HTTP/1.0 flag), the collected
Content-Length, and close-delimited.  (`from` is a Lean keyword, hence the
name `fromHeaders`.) -/
def RecvBodyMode.fromHeaders (is_http10 is_head : Bool) (status_code : Nat)
    (headers : List Header) : Except HootError RecvBodyMode :=
  if hasNoBody is_head status_code then
    .ok (.LengthDelimited 0)
  else
    match scanHeaders headers none false with
    | .error e => .error e
    | .ok (content_length, is_chunked) =>
      if is_chunked && !is_http10 then .ok .Chunked
      else
        match content_length with
        | some len => .ok (.LengthDelimited len)
        | none => .ok .CloseDelimited

example :
    RecvBodyMode.fromHeaders false false 200
      [⟨"Transfer-Encoding".toList, "chunked".toList⟩,
       ⟨"Content-Length".toList, "5".toList⟩] = .ok .Chunked := by decide

example :
    RecvBodyMode.fromHeaders true false 200
      [⟨"Transfer-Encoding".toList, "chunked".toList⟩,
       ⟨"Content-Length".toList, "5".toList⟩] = .ok (.LengthDelimited 5) := by
  decide

/-- An outcome of running a piece of the engine: a value, a surfaced
`HootError`, or a Rust panic (an `unwrap` of `None`). -/
inductive Outcome (α : Type)
  | ok (a : α)
  | err (e : HootError)
  | panic
deriving DecidableEq, Repr

/-- Call State of the historical response path in src/src/res.rs (its
`crate::req::CallState` is not under src/).  Modelled from the spec: the
data model §3 gives Call State a negotiated-HTTP-version attribute and a
request-method attribute, both optional until known; the fields below are
the version (as an is-HTTP/1.0 flag, the shape `RecvBodyMode::from`
consumes), the is-HEAD flag which src/src/res.rs reads, and the stored
body mode. -/
structure OldCallState where
  is_http10 : Option Bool
  is_head : Option Bool
  recv_body_mode : Option RecvBodyMode
deriving DecidableEq, Repr

/-- The body-mode computation of the historical
`Response::<RECV_RESPONSE>::try_read_response` (src/src/res.rs lines
126-129), run after the tokenizer reported a complete status line and
header block: both the `is_http10` and the `is_head` argument of
`RecvBodyMode::from` are read from `self.state.is_head` (line 126 is
`let is_http10 = self.state.is_head.unwrap();`), and the negotiated
version stored in Call State is never consulted. -/
def oldResolveBodyMode (state : OldCallState) (status_code : Nat)
    (headers : List Header) : Outcome RecvBodyMode :=
  match state.is_head with
  | none => .panic
  | some head_flag =>
    let is_http10 := head_flag
    let is_head := head_flag
    match RecvBodyMode.fromHeaders is_http10 is_head status_code headers with
    | .ok m => .ok m
    | .error e => .err e

/-- Modelled from the spec: the Length Checker of §4.5 lives in the missing
util module; it "tracks (expected total, consumed so far)".  Field names
follow its uses in src/src/client/res.rs. -/
structure LengthChecker where
  length : Nat
  handled : Nat
deriving DecidableEq, Repr

/-- Modelled from the spec: §4.5 `new(expected)`. -/
def LengthChecker.new (expected : Nat) : LengthChecker :=
  { length := expected, handled := 0 }

/-- Modelled from the spec: §4.5 `append(count, error_kind)` "adds `count`
to consumed, failing with `error_kind` if consumed would exceed expected". -/
def LengthChecker.append (c : LengthChecker) (count : Nat) (e : HootError) :
    Except HootError LengthChecker :=
  if c.length < c.handled + count then .error e
  else .ok { c with handled := c.handled + count }

/-- Modelled from the spec: §4.5 `complete()` "true iff consumed == expected". -/
def LengthChecker.complete (c : LengthChecker) : Bool :=
  c.handled == c.length

/-- Modelled from the spec: §4.5 `assert_expected(error_kind)` "fails with
`error_kind` if consumed < expected". -/
def LengthChecker.assertExpected (c : LengthChecker) (e : HootError) :
    Except HootError Unit :=
  if c.handled < c.length then .error e else .ok ()

/-- Modelled from the spec: the Chunk Decoder state machine of §4.4 lives in
the missing chunk module.  States: reading the chunk-size line (hexadecimal
value accumulated so far, whether a hex digit was seen, whether inside an
ignored chunk-extension, whether the CR of the line terminator was seen),
copying chunk bytes (remaining count), reading the trailing delimiter after
chunk data, consuming the trailer section after the zero-size chunk, and
ended. -/
inductive Dechunker
  | SizeLine (accum : Nat) (seenDigit : Bool) (inExtension : Bool) (seenCR : Bool)
  | Copying (remaining : Nat)
  | Delim (seenCR : Bool)
  | Trailer (lineHasContent : Bool) (seenCR : Bool)
  | Ended
deriving DecidableEq, Repr

/-- Initial decoder state: reading a chunk-size line (spec §4.4). -/
def Dechunker.new : Dechunker := .SizeLine 0 false false false

/-- Spec §4.4 `is_ended()`. -/
def Dechunker.isEnded : Dechunker → Bool
  | .Ended => true
  | _ => false

/-- Value of a hexadecimal digit byte. -/
def hexVal (b : Nat) : Option Nat :=
  if 48 ≤ b ∧ b ≤ 57 then some (b - 48)
  else if 97 ≤ b ∧ b ≤ 102 then some (b - 87)
  else if 65 ≤ b ∧ b ≤ 70 then some (b - 55)
  else none

/-- Modelled from the spec: §4.4 `decode(source, destination)`, written
byte-at-a-time over the source.  Returns the new decoder state, the count
of source bytes used and the produced output bytes (at most `dstCap`);
malformed chunk-size syntax fails with a parse error; trailer lines after
the zero-size chunk are consumed and discarded, and a blank trailer line
reaches the terminal state. -/
def Dechunker.run : Dechunker → List Nat → Nat →
    Except HootError (Dechunker × Nat × List Nat)
  | .Ended, _, _ => .ok (.Ended, 0, [])
  | d, [], _ => .ok (d, 0, [])
  | .SizeLine accum seenDigit inE seenCR, b :: rest, cap =>
    if seenCR then
      if b == 10 then
        if !seenDigit then .error .ChunkSyntax
        else if accum == 0 then
          match Dechunker.run (.Trailer false false) rest cap with
          | .ok (d2, u, o) => .ok (d2, u + 1, o)
          | .error e => .error e
        else
          match Dechunker.run (.Copying accum) rest cap with
          | .ok (d2, u, o) => .ok (d2, u + 1, o)
          | .error e => .error e
      else .error .ChunkSyntax
    else if b == 13 then
      match Dechunker.run (.SizeLine accum seenDigit inE true) rest cap with
      | .ok (d2, u, o) => .ok (d2, u + 1, o)
      | .error e => .error e
    else if inE then
      match Dechunker.run (.SizeLine accum seenDigit true false) rest cap with
      | .ok (d2, u, o) => .ok (d2, u + 1, o)
      | .error e => .error e
    else
      match hexVal b with
      | some v =>
        match Dechunker.run (.SizeLine (accum * 16 + v) true false false) rest cap with
        | .ok (d2, u, o) => .ok (d2, u + 1, o)
        | .error e => .error e
      | none =>
        if b == 59 then
          match Dechunker.run (.SizeLine accum seenDigit true false) rest cap with
          | .ok (d2, u, o) => .ok (d2, u + 1, o)
          | .error e => .error e
        else .error .ChunkSyntax
  | .Copying remaining, b :: rest, cap =>
    if cap == 0 then .ok (.Copying remaining, 0, [])
    else
      let d' : Dechunker :=
        if remaining ≤ 1 then .Delim false else .Copying (remaining - 1)
      match Dechunker.run d' rest (cap - 1) with
      | .ok (d2, u, o) => .ok (d2, u + 1, b :: o)
      | .error e => .error e
  | .Delim seenCR, b :: rest, cap =>
    if seenCR then
      if b == 10 then
        match Dechunker.run (.SizeLine 0 false false false) rest cap with
        | .ok (d2, u, o) => .ok (d2, u + 1, o)
        | .error e => .error e
      else .error .ChunkSyntax
    else if b == 13 then
      match Dechunker.run (.Delim true) rest cap with
      | .ok (d2, u, o) => .ok (d2, u + 1, o)
      | .error e => .error e
    else .error .ChunkSyntax
  | .Trailer hasContent seenCR, b :: rest, cap =>
    if b == 13 then
      match Dechunker.run (.Trailer hasContent true) rest cap with
      | .ok (d2, u, o) => .ok (d2, u + 1, o)
      | .error e => .error e
    else if b == 10 && seenCR then
      if hasContent then
        match Dechunker.run (.Trailer false false) rest cap with
        | .ok (d2, u, o) => .ok (d2, u + 1, o)
        | .error e => .error e
      else
        match Dechunker.run .Ended rest cap with
        | .ok (d2, u, o) => .ok (d2, u + 1, o)
        | .error e => .error e
    else
      match Dechunker.run (.Trailer true false) rest cap with
      | .ok (d2, u, o) => .ok (d2, u + 1, o)
      | .error e => .error e

/-- The shared Call State of one exchange (src/src/lib.rs `CallState`). -/
structure CallState where
  version : Option HttpVersion
  method : Option Method
  send_checker : Option LengthChecker
  recv_body_mode : Option RecvBodyMode
  recv_checker : Option LengthChecker
  dechunker : Option Dechunker
  did_read_to_end : Bool
deriving DecidableEq, Repr

/-- The Call State a client response engine starts from (src/src/lib.rs
`Default` plus the version and method recorded while sending the request,
as in `Response::resume` / `new_test`, src/src/client/res.rs lines 22-42). -/
def CallState.start (v : HttpVersion) (m : Method) : CallState :=
  { version := some v
    method := some m
    send_checker := none
    recv_body_mode := none
    recv_checker := none
    dechunker := none
    did_read_to_end := false }

/-- The parsed status line (src/src/client/res.rs `Status`). -/
structure Status where
  version : HttpVersion
  code : Nat
  reason : List Char
deriving DecidableEq, Repr

/-- Boundary of the external httparse tokenizer (spec §6): on one input it
reports not-yet-complete, a syntax error, or a complete status line and
header block with its consumed byte count, numeric version (0 = HTTP/1.0,
1 = HTTP/1.1, anything else unsupported), status code, reason phrase and
header pairs.  The engine is parameterised over this function; the scratch
buffer only bounds the header count and is abstracted away. -/
inductive ParseOutcome
  | Incomplete
  | Fail
  | Complete (consumed : Nat) (version : Nat) (code : Nat)
      (reason : List Char) (headers : List Header)

/-- The tokenizer as a function of the input bytes. -/
def Tokenizer : Type := List Nat → ParseOutcome

/-- Result of one status/header read attempt
(src/src/client/res.rs `ResponseAttempt`). -/
structure ResponseAttempt where
  success : Bool
  input_used : Nat
  status : Option Status
  headers : Option (List Header)
deriving DecidableEq, Repr

/-- `ResponseAttempt::empty` (src/src/client/res.rs lines 127-135). -/
def ResponseAttempt.empty : ResponseAttempt :=
  { success := false, input_used := 0, status := none, headers := none }

/-- One decoded piece of body (src/src/body.rs `BodyPart`; its three fields
are fixed by their uses in src/src/client/res.rs: input bytes used, output
bytes produced, finished flag). -/
structure BodyPart where
  input_used : Nat
  output : List Nat
  finished : Bool
deriving DecidableEq, Repr

/-- `BodyPart::empty`: nothing consumed, nothing produced, not finished. -/
def BodyPart.empty : BodyPart :=
  { input_used := 0, output := [], finished := false }

/-- Modelled from the spec: `RecvBodyMode::for_response` lives in the
missing body module; §4.1 gives the Body Framing Resolver the contract
`(is_http_1_0, is_head_request, status_code, headers)` with the same
five-step algorithm embedded above from `RecvBodyMode::from`
(src/src/res.rs); the client path passes the request method
(src/src/client/res.rs line 82), from which the is-HEAD flag derives. -/
def RecvBodyMode.forResponse (http10 : Bool) (method : Method)
    (status_code : Nat) (headers : List Header) :
    Except HootError RecvBodyMode :=
  RecvBodyMode.fromHeaders http10 (method == .HEAD) status_code headers

/-- The tail of `do_try_read_response` once the tokenizer reported a
complete block and the version token mapped to a known `HttpVersion`
(src/src/client/res.rs lines 76-99): unwrap the request method (a panic
when absent), resolve the body mode, install a Length Checker only for a
nonzero length-delimited mode, store the mode, and report success with the
consumed byte count. -/
def doTryComplete (s : CallState) (n : Nat) (code : Nat) (reason : List Char)
    (headers : List Header) (v : HttpVersion) :
    CallState × Outcome ResponseAttempt :=
  let status : Status := { version := v, code := code, reason := reason }
  let http10 := v == HttpVersion.Http10
  match s.method with
  | none => (s, Outcome.panic)
  | some method =>
    match RecvBodyMode.forResponse http10 method code headers with
    | .error e => (s, .err e)
    | .ok mode =>
      let s1 :=
        match mode with
        | .LengthDelimited len =>
          if 0 < len then
            { s with recv_checker := some (LengthChecker.new len) }
          else s
        | _ => s
      let s2 := { s1 with recv_body_mode := some mode }
      (s2, .ok { success := true, input_used := n,
                 status := some status, headers := some headers })

/-- `Response::do_try_read_response` (src/src/client/res.rs lines 50-100):
a second call after success, or a not-yet-complete parse, returns the empty
attempt and leaves the state untouched; on a complete parse the version
token is mapped (unsupported numbers fail) and `doTryComplete` finishes the
work. -/
def doTryReadResponse (parse : Tokenizer) (s : CallState) (input : List Nat) :
    CallState × Outcome ResponseAttempt :=
  if s.recv_body_mode.isSome then (s, .ok .empty)
  else
    match parse input with
    | .Fail => (s, .err .Tokenizer)
    | .Incomplete => (s, .ok .empty)
    | .Complete n ver code reason headers =>
      match ver with
      | 0 => doTryComplete s n code reason headers .Http10
      | 1 => doTryComplete s n code reason headers .Http11
      | _ => (s, .err .Version)

/-- `Response::<RECV_BODY>::read_limit` (src/src/client/res.rs lines
207-229): take `min (len src) (len dst)` bytes from the front of the
source; with the checker in use, unwrap it (a panic when absent), feed it
the count and report completion; without, never finished. -/
def readLimit (s : CallState) (src : List Nat) (dstCap : Nat)
    (use_checker : Bool) : CallState × Outcome BodyPart :=
  let input_used := min src.length dstCap
  if use_checker then
    match s.recv_checker with
    | none => (s, .panic)
    | some checker =>
      match checker.append input_used .RecvMoreThanContentLength with
      | .error e => (s, .err e)
      | .ok checker' =>
        ({ s with recv_checker := some checker' },
         .ok { input_used := input_used, output := src.take input_used,
               finished := checker'.complete })
  else
    (s, .ok { input_used := input_used, output := src.take input_used,
              finished := false })

/-- `Response::<RECV_BODY>::read_chunked` (src/src/client/res.rs lines
231-246): create the Chunk Decoder lazily on first use, run it, and report
its ended flag.  The source installs a fresh decoder when the slot is empty
and then unwraps the slot, which can no longer be empty; install-then-unwrap
is rendered here as `Option.getD`, with the slot written back in both
outcomes. -/
def readChunked (s : CallState) (src : List Nat) (dstCap : Nat) :
    CallState × Outcome BodyPart :=
  match (s.dechunker.getD Dechunker.new).run src dstCap with
  | .error e => ({ s with dechunker := some (s.dechunker.getD Dechunker.new) },
                 .err e)
  | .ok (d', used, out) =>
    ({ s with dechunker := some d' },
     .ok { input_used := used, output := out, finished := d'.isEnded })

/-- The mode dispatch of `read_body` (src/src/client/res.rs lines
190-194): length-delimited uses `read_limit` with the checker, chunked the
Chunk Decoder, close-delimited `read_limit` without the checker. -/
def readBodyStep (s : CallState) (src : List Nat) (dstCap : Nat)
    (mode : RecvBodyMode) : CallState × Outcome BodyPart :=
  match mode with
  | .LengthDelimited _ => readLimit s src dstCap true
  | .Chunked => readChunked s src dstCap
  | .CloseDelimited => readLimit s src dstCap false

/-- The epilogue of `read_body` (src/src/client/res.rs lines 194-204): an
error or panic propagates; a finished piece sets the read-to-end flag, and
the piece's counts and output are returned. -/
def readBodyEpilogue : CallState × Outcome BodyPart →
    CallState × Outcome BodyPart
  | (s2, .err e) => (s2, .err e)
  | (s2, .panic) => (s2, .panic)
  | (s2, .ok bit) =>
    (if bit.finished then { s2 with did_read_to_end := true } else s2,
     .ok { input_used := bit.input_used, output := bit.output,
           finished := bit.finished })

/-- The tail of `read_body` after implicit header resolution
(src/src/client/res.rs lines 184-204): an exchange already read to its end
consumes nothing; otherwise dispatch on the stored mode (`unwrap`, a panic
when unset), and record read-to-end when the piece reports finished. -/
def readBodyCore (s : CallState) (src : List Nat) (dstCap : Nat) :
    CallState × Outcome BodyPart :=
  if s.did_read_to_end then (s, .ok .empty)
  else
    match s.recv_body_mode with
    | none => (s, .panic)
    | some mode => readBodyEpilogue (readBodyStep s src dstCap mode)

/-- `Response::<RECV_BODY>::read_body` (src/src/client/res.rs lines
169-205): when the status/headers were not resolved yet, resolve them from
the same buffers first (an unsuccessful attempt yields the empty body
part); note that on success the source is then handed to the body decoders
unchanged, from offset zero. -/
def readBody (parse : Tokenizer) (s : CallState) (src : List Nat)
    (dstCap : Nat) : CallState × Outcome BodyPart :=
  if s.recv_body_mode.isSome then readBodyCore s src dstCap
  else
    match doTryReadResponse parse s src with
    | (s', .err e) => (s', .err e)
    | (s', .panic) => (s', .panic)
    | (s', .ok r) =>
      if r.success then readBodyCore s' src dstCap
      else (s', .ok .empty)

/-- `Response::<RECV_RESPONSE>::proceed` (src/src/client/res.rs lines
163-165): a pure type-level transition carrying the Call State unchanged. -/
def proceed (s : CallState) : CallState := s

/-- `Response::<RECV_BODY>::is_finished` (src/src/client/res.rs lines
248-252): unwrap the stored mode (a panic when unset); finished iff the
mode is not close-delimited and the read-to-end flag is set. -/
def isFinished (s : CallState) : Outcome Bool :=
  match s.recv_body_mode with
  | none => .panic
  | some mode => .ok (!(mode == .CloseDelimited) && s.did_read_to_end)

/-- The `is_finished` gate at the end of `finish`
(src/src/client/res.rs lines 259-263). -/
def finishCheck (s : CallState) : Outcome Unit :=
  match isFinished s with
  | .ok true => .ok ()
  | .ok false => .err .BodyNotFinished
  | .err e => .err e
  | .panic => .panic

/-- `Response::<RECV_BODY>::finish` (src/src/client/res.rs lines 254-264):
with a Length Checker present, first assert the expected count was
consumed; then fail unless `is_finished` holds. -/
def finish (s : CallState) : Outcome Unit :=
  match s.recv_checker with
  | some checker =>
    match checker.assertExpected .RecvLessThanContentLength with
    | .error e => .err e
    | .ok _ => finishCheck s
  | none => finishCheck s

/-- The Call State invariant of C8 (spec §3): a Length Checker is present
only when the stored framing mode is length-delimited with nonzero length,
a Chunk Decoder only when it is chunked — so at most one of the two can be
present. -/
def StateInv (s : CallState) : Prop :=
  (∀ c, s.recv_checker = some c →
     ∃ n, s.recv_body_mode = some (.LengthDelimited n) ∧ 0 < n)
  ∧ (∀ d, s.dechunker = some d → s.recv_body_mode = some .Chunked)

/-- Mode stability for C8: whatever framing mode `s` stores, `s'` stores
the same one. -/
def ModePreserved (s s' : CallState) : Prop :=
  ∀ m, s.recv_body_mode = some m → s'.recv_body_mode = some m

/-- Helper for C2: the header scan of `RecvBodyMode::from` errors with
`DuplicateContentLength` as soon as a second Content-Length header (counting
one already accumulated) is met, provided every Content-Length value up to
that point parses as a number. -/
theorem scanHeaders_duplicate (headers : List Header) :
    ∀ (cl : Option Nat) (ch : Bool),
    (∀ h ∈ headers, isContentLength h = true → (parseU64 h.value).isSome) →
    2 ≤ (headers.filter isContentLength).length +
      (if cl.isSome then 1 else 0) →
    scanHeaders headers cl ch = .error .DuplicateContentLength := by
  induction headers with
  | nil =>
    intro cl ch _ hcount
    rcases cl <;> simp at hcount
  | cons h rest ih =>
    intro cl ch hvals hcount
    by_cases hCL : isContentLength h = true
    · have hv := hvals h (List.mem_cons_self h rest) hCL
      obtain ⟨v, hv⟩ := Option.isSome_iff_exists.mp hv
      cases cl with
      | some w => simp [scanHeaders, hCL, hv]
      | none =>
        have hrest : 2 ≤ (rest.filter isContentLength).length + 1 := by
          simp [List.filter_cons, hCL] at hcount
          omega
        have := ih (some v) ch
          (fun g hg hc => hvals g (List.mem_cons_of_mem h hg) hc)
          (by simpa using hrest)
        simp [scanHeaders, hCL, hv, this]
    · have hcl : isContentLength h = false := by
        simpa using hCL
      have hrest : 2 ≤ (rest.filter isContentLength).length +
          (if cl.isSome then 1 else 0) := by
        simpa [List.filter_cons, hcl] using hcount
      have htail := fun ch' => ih cl ch'
        (fun g hg hc => hvals g (List.mem_cons_of_mem h hg) hc) hrest
      by_cases hTE : (!ch && isTransferEncoding h) = true
      · simp [scanHeaders, hcl, hTE, htail]
      · simp only [Bool.not_eq_true] at hTE
        simp [scanHeaders, hcl, hTE, htail]

/-- C1: the claim reads the sources as ignoring the chunked signal for a
negotiated HTTP/1.0 peer.  On the historical path (src/src/res.rs lines
126-129) the flag passed as `is_http10` to `RecvBodyMode::from` is read
from `state.is_head`, so for an exchange whose Call State records
negotiated version HTTP/1.0 and a non-HEAD request, a response with
`Transfer-Encoding: chunked` and `Content-Length: 5` resolves to `Chunked`
instead of falling through to `LengthDelimited 5`. -/
theorem oldResolveBodyMode_http10_chunked_not_ignored :
    oldResolveBodyMode
      { is_http10 := some true, is_head := some false, recv_body_mode := none }
      200
      [⟨"Transfer-Encoding".toList, "chunked".toList⟩,
       ⟨"Content-Length".toList, "5".toList⟩]
      = .ok .Chunked := by decide

/-- C2: for a response not excluded from having a body, a header list
holding two or more Content-Length headers (whatever their numeric values,
identical or distinct) makes body framing resolution fail with the
duplicate-length error. -/
theorem fromHeaders_duplicate_content_length
    (is_http10 is_head : Bool) (status_code : Nat) (headers : List Header)
    (hbody : hasNoBody is_head status_code = false)
    (hvals : ∀ h ∈ headers, isContentLength h = true → (parseU64 h.value).isSome)
    (hdup : 2 ≤ (headers.filter isContentLength).length) :
    RecvBodyMode.fromHeaders is_http10 is_head status_code headers
      = .error .DuplicateContentLength := by
  have hscan := scanHeaders_duplicate headers none false hvals (by simpa using hdup)
  simp [RecvBodyMode.fromHeaders, hbody, hscan]

/-- Witness for C2 at a concrete input: status 200, two identical
`Content-Length: 5` headers. -/
theorem fromHeaders_duplicate_content_length_witness :
    hasNoBody false 200 = false ∧
    RecvBodyMode.fromHeaders false false 200
      [⟨"Content-Length".toList, "5".toList⟩,
       ⟨"Content-Length".toList, "5".toList⟩]
      = .error .DuplicateContentLength :=
  ⟨by decide,
   fromHeaders_duplicate_content_length false false 200
     [⟨"Content-Length".toList, "5".toList⟩,
      ⟨"Content-Length".toList, "5".toList⟩]
     (by decide) (by decide) (by decide)⟩

/-- C3: a HEAD response, or one with status 1xx/204/304, always resolves to
`LengthDelimited 0`, whatever headers are present. -/
theorem fromHeaders_no_body_statuses
    (is_http10 is_head : Bool) (status_code : Nat) (headers : List Header)
    (h : is_head = true ∨ (100 ≤ status_code ∧ status_code ≤ 199) ∨
         status_code = 204 ∨ status_code = 304) :
    RecvBodyMode.fromHeaders is_http10 is_head status_code headers
      = .ok (.LengthDelimited 0) := by
  have hb : hasNoBody is_head status_code = true := by
    rcases h with h | ⟨h1, h2⟩ | h | h <;> simp [hasNoBody, *]
  simp [RecvBodyMode.fromHeaders, hb]

/-- Witness for C3 at a concrete input: status 204 with both a
Content-Length and a chunked Transfer-Encoding header. -/
theorem fromHeaders_no_body_statuses_witness :
    (false = true ∨ (100 ≤ 204 ∧ 204 ≤ 199) ∨ 204 = 204 ∨ 204 = 304) ∧
    RecvBodyMode.fromHeaders false false 204
      [⟨"Content-Length".toList, "5".toList⟩,
       ⟨"Transfer-Encoding".toList, "chunked".toList⟩]
      = .ok (.LengthDelimited 0) :=
  ⟨by decide,
   fromHeaders_no_body_statuses false false 204
     [⟨"Content-Length".toList, "5".toList⟩,
      ⟨"Transfer-Encoding".toList, "chunked".toList⟩]
     (by decide)⟩

/-- C4: an exchange whose framing resolved to `LengthDelimited 0` (here a
GET receiving a 204, resolved implicitly by this very call) does not return
an immediately-finished empty body part from `read_body`: the dispatch
hands `LengthDelimited` to `read_limit` with the checker in use, and the
`unwrap` of the absent Length Checker (installed only for nonzero lengths)
panics. -/
theorem readBody_zero_length_panics :
    (readBody (fun _ => ParseOutcome.Complete 27 1 204 [] [])
      (CallState.start .Http11 .GET) [] 0).2 = Outcome.panic := by rfl

/-- C7: `try_read_response` may be called repeatedly: a not-yet-complete
status/header block yields an unsuccessful attempt consuming zero bytes
with the Call State untouched, and any call once the body mode is stored
(the mark of an earlier successful parse) yields the empty attempt with
zero bytes consumed and the state, in particular the stored framing mode,
untouched.  The empty attempt is unsuccessful and consumes nothing. -/
theorem tryReadResponse_incomplete_and_idempotent
    (parse : Tokenizer) (s : CallState) (input : List Nat) :
    (parse input = ParseOutcome.Incomplete →
       doTryReadResponse parse s input = (s, .ok .empty))
    ∧ (s.recv_body_mode.isSome →
       doTryReadResponse parse s input = (s, .ok .empty))
    ∧ ResponseAttempt.empty.success = false
    ∧ ResponseAttempt.empty.input_used = 0 := by
  refine ⟨?_, ?_, rfl, rfl⟩
  · intro hp
    by_cases hm : s.recv_body_mode.isSome
    · simp [doTryReadResponse, hm]
    · simp [doTryReadResponse, hm, hp]
  · intro hm
    simp [doTryReadResponse, hm]

/-- Witness for C7: a tokenizer that reports not-yet-complete leaves the
fresh state alone, and a state with a stored mode is never re-parsed even
when the tokenizer would now succeed. -/
theorem tryReadResponse_incomplete_and_idempotent_witness :
    doTryReadResponse (fun _ => ParseOutcome.Incomplete)
      (CallState.start .Http11 .GET) [] =
      (CallState.start .Http11 .GET, .ok .empty)
    ∧ doTryReadResponse (fun _ => ParseOutcome.Complete 5 1 200 [] [])
      { CallState.start .Http11 .GET with recv_body_mode := some .Chunked } [] =
      ({ CallState.start .Http11 .GET with recv_body_mode := some .Chunked },
       .ok .empty) :=
  ⟨(tryReadResponse_incomplete_and_idempotent _ _ _).1 rfl,
   (tryReadResponse_incomplete_and_idempotent _ _ _).2.1 rfl⟩

/-- C9: byte accounting across implicit header resolution.  The source is
the full 39 bytes of `HTTP/1.1 200 OK\r\nContent-Length: 1\r\n\r\nX` (38
bytes of status/header block, then one body byte); the tokenizer reports
the complete block of 38 bytes.  The claim expects a body part using all
39 input bytes and decoding from byte 38; the code instead hands the
unshifted source to `read_limit`, so all 39 bytes count against the
declared `Content-Length: 1` and the call fails with the overrun error. -/
theorem readBody_implicit_resolution_loses_offset :
    (readBody
      (fun _ => ParseOutcome.Complete 38 1 200 "OK".toList
        [⟨"Content-Length".toList, "1".toList⟩])
      (CallState.start .Http11 .GET)
      ("HTTP/1.1 200 OK\r\nContent-Length: 1\r\n\r\nX".toList.map Char.toNat)
      100).2
    = Outcome.err .RecvMoreThanContentLength := by decide

/-- C5: `is_finished` holds iff the framing mode is not close-delimited and
the read-to-end flag is set; `finish` succeeds iff `is_finished` holds and
any Length Checker present has consumed its expected count; with a Length
Checker short of its expected count `finish` fails with the under-read
error (this check runs first); with the count met but `is_finished` false
it fails with the body-not-finished error; and for a close-delimited
exchange `finish` never succeeds. -/
theorem finish_gating (s : CallState) (mode : RecvBodyMode)
    (hm : s.recv_body_mode = some mode) :
    (isFinished s =
       .ok (!(mode == RecvBodyMode.CloseDelimited) && s.did_read_to_end))
    ∧ (finish s = .ok () ↔ (isFinished s = .ok true ∧
         ∀ c, s.recv_checker = some c → c.length ≤ c.handled))
    ∧ (∀ c, s.recv_checker = some c → c.handled < c.length →
         finish s = .err .RecvLessThanContentLength)
    ∧ ((∀ c, s.recv_checker = some c → c.length ≤ c.handled) →
         isFinished s = .ok false → finish s = .err .BodyNotFinished)
    ∧ (mode = .CloseDelimited → finish s ≠ .ok ()) := by
  have hif : isFinished s =
      .ok (!(mode == RecvBodyMode.CloseDelimited) && s.did_read_to_end) := by
    simp [isFinished, hm]
  refine ⟨hif, ?_, ?_, ?_, ?_⟩
  · cases hc : s.recv_checker with
    | none =>
      cases hb : (!(mode == RecvBodyMode.CloseDelimited) && s.did_read_to_end) with
      | true =>
        have ht : isFinished s = .ok true := by rw [hif, hb]
        simp [finish, hc, finishCheck, ht]
      | false =>
        have ht : isFinished s = .ok false := by rw [hif, hb]
        simp [finish, hc, finishCheck, ht]
    | some c =>
      by_cases hlt : c.handled < c.length
      · have hfe : finish s = .err .RecvLessThanContentLength := by
          simp [finish, hc, LengthChecker.assertExpected, hlt]
        rw [hfe]
        simp [hc]
        intro _
        omega
      · have hge : c.length ≤ c.handled := not_lt.mp hlt
        cases hb : (!(mode == RecvBodyMode.CloseDelimited) && s.did_read_to_end) with
        | true =>
          have ht : isFinished s = .ok true := by rw [hif, hb]
          simp [finish, hc, LengthChecker.assertExpected, hlt, finishCheck,
            ht, hge]
        | false =>
          have ht : isFinished s = .ok false := by rw [hif, hb]
          simp [finish, hc, LengthChecker.assertExpected, hlt, finishCheck, ht]
  · intro c hc hlt
    simp [finish, hc, LengthChecker.assertExpected, hlt]
  · intro hall hfalse
    cases hc : s.recv_checker with
    | none => simp [finish, hc, finishCheck, hfalse]
    | some c =>
      have hlt : ¬ c.handled < c.length := not_lt.mpr (hall c hc)
      simp [finish, hc, LengthChecker.assertExpected, hlt, finishCheck, hfalse]
  · intro hmode hok
    subst hmode
    have hfalse : isFinished s = .ok false := by
      rw [hif]; simp
    cases hc : s.recv_checker with
    | none =>
      have hfe : finish s = .err .BodyNotFinished := by
        simp [finish, hc, finishCheck, hfalse]
      simp [hfe] at hok
    | some c =>
      by_cases hlt : c.handled < c.length
      · have hfe : finish s = .err .RecvLessThanContentLength := by
          simp [finish, hc, LengthChecker.assertExpected, hlt]
        simp [hfe] at hok
      · have hfe : finish s = .err .BodyNotFinished := by
          simp [finish, hc, LengthChecker.assertExpected, hlt, finishCheck,
            hfalse]
        simp [hfe] at hok

/-- Witness for C5: an exchange resolved to close-delimited can never be
finished. -/
theorem finish_gating_witness :
    ({ CallState.start .Http11 .GET with
        recv_body_mode := some RecvBodyMode.CloseDelimited } :
      CallState).recv_body_mode = some .CloseDelimited ∧
    finish { CallState.start .Http11 .GET with
        recv_body_mode := some RecvBodyMode.CloseDelimited } ≠ .ok () :=
  ⟨rfl,
   (finish_gating
      { CallState.start .Http11 .GET with
          recv_body_mode := some RecvBodyMode.CloseDelimited }
      .CloseDelimited rfl).2.2.2.2 rfl⟩

/-- C6: in length-delimited mode with nonzero expected length `n` and `c`
bytes already consumed, `read_body` copies exactly
`min (len src) (len dst)` bytes from the front of the source, reporting
that count as input used and as output produced; it fails with the overrun
error exactly when the cumulative count `c + min (len src) (len dst)` would
exceed `n`, and otherwise sets the finished flag (and the read-to-end flag)
iff the cumulative count equals `n`. -/
theorem readBody_length_delimited_accounting
    (p : Tokenizer) (s : CallState) (n c : Nat) (src : List Nat) (cap : Nat)
    (hm : s.recv_body_mode = some (.LengthDelimited n)) (_hn : 0 < n)
    (hc : s.recv_checker = some { length := n, handled := c })
    (hr : s.did_read_to_end = false) :
    (n < c + min src.length cap →
       readBody p s src cap = (s, .err .RecvMoreThanContentLength))
    ∧ (c + min src.length cap ≤ n →
       readBody p s src cap =
         ({ s with
              recv_checker := some
                { length := n, handled := c + min src.length cap },
              did_read_to_end := (c + min src.length cap == n) },
          .ok { input_used := min src.length cap,
                output := src.take (min src.length cap),
                finished := (c + min src.length cap == n) })) := by
  obtain ⟨v, meth, sc, rbm, rc, dch, dr⟩ := s
  simp only at hm hc hr
  subst hm hc hr
  constructor
  · intro h1
    simp [readBody, readBodyCore, readBodyStep, readBodyEpilogue, readLimit,
      LengthChecker.append, h1]
  · intro h2
    have h1 : ¬ (n < c + min src.length cap) := not_lt.mpr h2
    cases hq : (c + min src.length cap == n) <;>
      simp [readBody, readBodyCore, readBodyStep, readBodyEpilogue, readLimit,
        LengthChecker.append, LengthChecker.complete, h1, hq]

/-- Witness for C6: expected length 3, nothing consumed yet, a three-byte
source and ample destination: all three bytes are copied, the part is
finished and read-to-end is set. -/
theorem readBody_length_delimited_accounting_witness :
    0 < 3 ∧
    readBody (fun _ => ParseOutcome.Incomplete)
      { CallState.start .Http11 .GET with
          recv_body_mode := some (.LengthDelimited 3),
          recv_checker := some { length := 3, handled := 0 } }
      [1, 2, 3] 10 =
      ({ CallState.start .Http11 .GET with
          recv_body_mode := some (.LengthDelimited 3),
          recv_checker := some { length := 3, handled := 3 },
          did_read_to_end := true },
       .ok { input_used := 3, output := [1, 2, 3], finished := true }) :=
  ⟨by decide,
   (readBody_length_delimited_accounting (fun _ => ParseOutcome.Incomplete)
      _ 3 0 [1, 2, 3] 10 rfl (by decide) rfl rfl).2 (by decide)⟩

/-- C10: before the framing mode is resolved (reachable because `proceed`
is available before any successful `try_read_response`), `is_finished`
panics on unwrapping the unset mode instead of returning false. -/
theorem isFinished_panics_without_mode (s : CallState)
    (h : s.recv_body_mode = none) :
    isFinished (proceed s) = Outcome.panic := by
  simp [isFinished, proceed, h]

/-- Witness for C10: a fresh exchange moved to the body phase straight
away. -/
theorem isFinished_panics_without_mode_witness :
    (CallState.start .Http11 .GET).recv_body_mode = none ∧
    isFinished (proceed (CallState.start .Http11 .GET)) = Outcome.panic :=
  ⟨rfl, isFinished_panics_without_mode (CallState.start .Http11 .GET) rfl⟩

/-- With no stored mode, the invariant forces an empty checker slot. -/
theorem StateInv.checker_none (s : CallState) (h : StateInv s)
    (hmode : s.recv_body_mode = none) : s.recv_checker = none := by
  cases hrc : s.recv_checker with
  | none => rfl
  | some c =>
    obtain ⟨n, hn, -⟩ := h.1 c hrc
    rw [hmode] at hn
    cases hn

/-- With no stored mode, the invariant forces an empty decoder slot. -/
theorem StateInv.dechunker_none (s : CallState) (h : StateInv s)
    (hmode : s.recv_body_mode = none) : s.dechunker = none := by
  cases hdc : s.dechunker with
  | none => rfl
  | some d =>
    have hn := h.2 d hdc
    rw [hmode] at hn
    cases hn

/-- The invariant survives a write to the read-to-end flag. -/
theorem StateInv.set_read_to_end (s : CallState) (b : Bool) (h : StateInv s) :
    StateInv { s with did_read_to_end := b } := by
  refine ⟨fun c hc => ?_, fun d hd => ?_⟩
  · obtain ⟨n, hn, hp⟩ := h.1 c (by simpa using hc)
    exact ⟨n, by simpa using hn, hp⟩
  · have := h.2 d (by simpa using hd)
    simpa using this

/-- `doTryComplete` keeps the invariant when run on a state with no stored
mode. -/
theorem doTryComplete_inv (s : CallState) (n code : Nat) (reason : List Char)
    (headers : List Header) (v : HttpVersion)
    (hmode : s.recv_body_mode = none) (h : StateInv s) :
    StateInv (doTryComplete s n code reason headers v).1 := by
  have hrc := StateInv.checker_none s h hmode
  have hdc := StateInv.dechunker_none s h hmode
  cases hmeth : s.method with
  | none => simp only [doTryComplete, hmeth]; exact h
  | some meth =>
    cases hfr : RecvBodyMode.forResponse (v == HttpVersion.Http10) meth code
        headers with
    | error e => simp only [doTryComplete, hmeth, hfr]; exact h
    | ok mode =>
      cases mode with
      | LengthDelimited len =>
        by_cases hlen : 0 < len
        · simp only [doTryComplete, hmeth, hfr, if_pos hlen]
          refine ⟨fun c hc => ?_, fun d hd => ?_⟩
          · exact ⟨len, by simp, hlen⟩
          · simp [hdc] at hd
        · simp only [doTryComplete, hmeth, hfr, if_neg hlen]
          refine ⟨fun c hc => ?_, fun d hd => ?_⟩
          · simp [hrc] at hc
          · simp [hdc] at hd
      | Chunked =>
        simp only [doTryComplete, hmeth, hfr]
        exact ⟨fun c hc => by simp [hrc] at hc, fun d hd => by simp⟩
      | CloseDelimited =>
        simp only [doTryComplete, hmeth, hfr]
        exact ⟨fun c hc => by simp [hrc] at hc, fun d hd => by simp [hdc] at hd⟩

/-- `do_try_read_response` keeps the invariant and never changes a stored
mode. -/
theorem doTryReadResponse_inv (p : Tokenizer) (s : CallState)
    (input : List Nat) (h : StateInv s) :
    StateInv (doTryReadResponse p s input).1 ∧
    ModePreserved s (doTryReadResponse p s input).1 := by
  by_cases hms : s.recv_body_mode.isSome
  · simp only [doTryReadResponse, if_pos hms]
    exact ⟨h, fun m hm => hm⟩
  · have hmode : s.recv_body_mode = none := Option.not_isSome_iff_eq_none.mp hms
    have hpres : ∀ s' : CallState, ModePreserved s s' := by
      intro s' m hm
      rw [hmode] at hm
      cases hm
    simp only [doTryReadResponse, if_neg hms]
    cases hp : p input with
    | Fail => exact ⟨h, hpres _⟩
    | Incomplete => exact ⟨h, hpres _⟩
    | Complete n ver code reason headers =>
      rcases ver with _ | (_ | ver)
      · exact ⟨doTryComplete_inv s n code reason headers .Http10 hmode h,
          hpres _⟩
      · exact ⟨doTryComplete_inv s n code reason headers .Http11 hmode h,
          hpres _⟩
      · exact ⟨h, hpres _⟩

/-- `read_limit` keeps the invariant and never changes a stored mode. -/
theorem readLimit_inv (s : CallState) (src : List Nat) (cap : Nat)
    (uc : Bool) (h : StateInv s) :
    StateInv (readLimit s src cap uc).1 ∧
    ModePreserved s (readLimit s src cap uc).1 := by
  cases uc with
  | false =>
    simp only [readLimit]
    exact ⟨h, fun m hm => hm⟩
  | true =>
    cases hrc : s.recv_checker with
    | none =>
      simp only [readLimit, hrc]
      exact ⟨h, fun m hm => hm⟩
    | some c =>
      cases happ : c.append (min src.length cap) .RecvMoreThanContentLength with
      | error e =>
        simp only [readLimit, hrc, happ]
        exact ⟨h, fun m hm => hm⟩
      | ok c' =>
        simp only [readLimit, hrc, happ]
        refine ⟨⟨fun c2 hc2 => ?_, fun d hd => ?_⟩, fun m hm => ?_⟩
        · obtain ⟨n, hn, hp⟩ := h.1 c hrc
          exact ⟨n, by simpa using hn, hp⟩
        · have := h.2 d (by simpa using hd)
          simpa using this
        · simpa using hm

/-- `read_chunked` keeps the invariant under a stored chunked mode and
never changes a stored mode. -/
theorem readChunked_inv (s : CallState) (src : List Nat) (cap : Nat)
    (h : StateInv s) (hmode : s.recv_body_mode = some .Chunked) :
    StateInv (readChunked s src cap).1 ∧
    ModePreserved s (readChunked s src cap).1 := by
  have base : ∀ d? : Option Dechunker,
      StateInv { s with dechunker := d? } ∧
      ModePreserved s { s with dechunker := d? } := by
    intro d?
    refine ⟨⟨fun c hc => ?_, fun d hd => ?_⟩, fun m hm => ?_⟩
    · obtain ⟨n, hn, hp⟩ := h.1 c (by simpa using hc)
      exact ⟨n, by simpa using hn, hp⟩
    · simpa using hmode
    · simpa using hm
  cases hrun : (s.dechunker.getD Dechunker.new).run src cap with
  | error e =>
    simp only [readChunked, hrun]
    exact base _
  | ok r =>
    obtain ⟨d', used, out⟩ := r
    simp only [readChunked, hrun]
    exact base _

/-- The epilogue of `read_body` keeps the invariant and the mode of its
input state. -/
theorem readBodyEpilogue_inv (s : CallState) (r : CallState × Outcome BodyPart)
    (hi : StateInv r.1) (hp : ModePreserved s r.1) :
    StateInv (readBodyEpilogue r).1 ∧ ModePreserved s (readBodyEpilogue r).1 := by
  obtain ⟨s2, o⟩ := r
  cases o with
  | err e => exact ⟨hi, hp⟩
  | panic => exact ⟨hi, hp⟩
  | ok bit =>
    cases hb : bit.finished with
    | false =>
      have hnf : ¬ (bit.finished = true) := by simp [hb]
      simp only [readBodyEpilogue, if_neg hnf]
      exact ⟨hi, hp⟩
    | true =>
      have hf : bit.finished = true := hb
      simp only [readBodyEpilogue, if_pos hf]
      exact ⟨StateInv.set_read_to_end s2 true hi,
        fun m hm => by simpa using hp m hm⟩

/-- The `read_body` tail keeps the invariant and never changes a stored
mode. -/
theorem readBodyCore_inv (s : CallState) (src : List Nat) (cap : Nat)
    (h : StateInv s) :
    StateInv (readBodyCore s src cap).1 ∧
    ModePreserved s (readBodyCore s src cap).1 := by
  by_cases hdr : s.did_read_to_end
  · simp only [readBodyCore, if_pos hdr]
    exact ⟨h, fun m hm => hm⟩
  · simp only [readBodyCore, if_neg hdr]
    cases hmode : s.recv_body_mode with
    | none => exact ⟨h, fun m hm => hm⟩
    | some mode =>
      have hstep : StateInv (readBodyStep s src cap mode).1 ∧
          ModePreserved s (readBodyStep s src cap mode).1 := by
        cases mode with
        | LengthDelimited k => exact readLimit_inv s src cap true h
        | Chunked => exact readChunked_inv s src cap h hmode
        | CloseDelimited => exact readLimit_inv s src cap false h
      exact readBodyEpilogue_inv s (readBodyStep s src cap mode)
        hstep.1 hstep.2

/-- `read_body` keeps the invariant and never changes a stored mode. -/
theorem readBody_inv (p : Tokenizer) (s : CallState) (src : List Nat)
    (cap : Nat) (h : StateInv s) :
    StateInv (readBody p s src cap).1 ∧
    ModePreserved s (readBody p s src cap).1 := by
  by_cases hms : s.recv_body_mode.isSome
  · simp only [readBody, if_pos hms]
    exact readBodyCore_inv s src cap h
  · simp only [readBody, if_neg hms]
    obtain ⟨hi, hp⟩ := doTryReadResponse_inv p s src h
    cases hres : doTryReadResponse p s src with
    | mk s' o =>
      rw [hres] at hi hp
      cases o with
      | err e => exact ⟨hi, hp⟩
      | panic => exact ⟨hi, hp⟩
      | ok r =>
        cases hrs : r.success with
        | false =>
          have hnf : ¬ (r.success = true) := by simp [hrs]
          simp only [if_neg hnf]
          exact ⟨hi, hp⟩
        | true =>
          have hf : r.success = true := hrs
          simp only [if_pos hf]
          obtain ⟨hi2, hp2⟩ := readBodyCore_inv s' src cap hi
          exact ⟨hi2, fun m hm => hp2 m (hp m hm)⟩

/-- The invariant holds of the state a fresh exchange starts from. -/
theorem stateInv_start (v : HttpVersion) (m : Method) :
    StateInv (CallState.start v m) := by
  unfold StateInv
  refine ⟨fun c hc => ?_, fun d hd => ?_⟩
  · cases hc
  · cases hd

/-- C8: within one exchange the body-framing mode, once stored, is never
changed by any further engine operation, and the Call State keeps the
invariant that a Length Checker is present only under a stored nonzero
length-delimited mode and a Chunk Decoder only under a stored chunked mode
— so at most one of the two is ever present: it holds in the starting
state and is preserved by `try_read_response`, `read_body` and `proceed`,
the operations that touch Call State. -/
theorem engine_state_invariant :
    (∀ v m, StateInv (CallState.start v m))
    ∧ (∀ s, StateInv s → s.recv_checker.isSome → s.dechunker.isSome → False)
    ∧ (∀ p s input, StateInv s →
         StateInv (doTryReadResponse p s input).1 ∧
         ModePreserved s (doTryReadResponse p s input).1)
    ∧ (∀ p s src cap, StateInv s →
         StateInv (readBody p s src cap).1 ∧
         ModePreserved s (readBody p s src cap).1)
    ∧ (∀ s, StateInv s → StateInv (proceed s) ∧ ModePreserved s (proceed s)) := by
  refine ⟨stateInv_start, ?_, doTryReadResponse_inv, readBody_inv,
    fun s h => ⟨h, fun m hm => hm⟩⟩
  · intro s h hcs hds
    obtain ⟨c, hc⟩ := Option.isSome_iff_exists.mp hcs
    obtain ⟨d, hd⟩ := Option.isSome_iff_exists.mp hds
    obtain ⟨n, hn, -⟩ := h.1 c hc
    have hchunk := h.2 d hd
    rw [hn] at hchunk
    cases hchunk

/-- Witness for C8: the invariant holds of a fresh exchange and is carried
through a `read_body` call on it. -/
theorem engine_state_invariant_witness :
    StateInv (CallState.start .Http11 .GET) ∧
    StateInv (readBody (fun _ => ParseOutcome.Incomplete)
      (CallState.start .Http11 .GET) [] 0).1 :=
  ⟨engine_state_invariant.1 .Http11 .GET,
   (engine_state_invariant.2.2.2.1 (fun _ => ParseOutcome.Incomplete)
      (CallState.start .Http11 .GET) [] 0
      (stateInv_start .Http11 .GET)).1⟩

end Hoot
